import Mathlib

/-!
Shallow embedding of the core of `neon_mq_connector` (connector.py and
utils/connection_utils.py): the publish path `MQConnector.emit_mq_message`,
the consumer registry `MQConnector.register_consumer` /
`MQConnector.stop_consumers`, the consumer thread loop `ConsumerThread.run` /
`ConsumerThread.join`, and the retry machinery `get_timeout` / `retry`.
Python dictionaries are modelled as association lists with first-match
lookup and in-place overwrite; exceptions are modelled by explicit result
constructors; the external pika broker client is modelled by a trace of the
operations the code invokes on it.
-/

namespace NeonMQ

/-! ### Python dict primitives

`dictGet?` is `d[k]` / `k in d` (first matching entry); `dictSet` is
`d[k] = v`: if the key is present its entry is overwritten in place,
otherwise the new entry is appended at the end, exactly as a Python dict
keeps insertion order. -/

def dictGet? {β : Type} (es : List (String × β)) (k : String) : Option β :=
  (es.find? (fun p => p.1 = k)).map (fun p => p.2)

def overwriteKey {β : Type} (k : String) (v : β) (es : List (String × β)) :
    List (String × β) :=
  es.map (fun p => if p.1 = k then (k, v) else p)

def dictSet {β : Type} (es : List (String × β)) (k : String) (v : β) :
    List (String × β) :=
  if es.any (fun p => p.1 = k) then overwriteKey k v es
  else es ++ [(k, v)]

theorem dictGet?_cons {β : Type} (p : String × β) (es : List (String × β))
    (k : String) :
    dictGet? (p :: es) k = if p.1 = k then some p.2 else dictGet? es k := by
  by_cases h : p.1 = k <;> simp [dictGet?, List.find?, h]

theorem overwriteKey_keys {β : Type} (k : String) (v : β)
    (es : List (String × β)) :
    (overwriteKey k v es).map Prod.fst = es.map Prod.fst := by
  induction es with
  | nil => rfl
  | cons p tl ih =>
    simp only [overwriteKey, List.map_cons] at ih ⊢
    by_cases hp : p.1 = k
    · simp [hp, ih]
    · simp [hp, ih]

theorem dictGet?_overwriteKey_self {β : Type} (k : String) (v : β)
    (es : List (String × β)) (h : es.any (fun p => p.1 = k) = true) :
    dictGet? (overwriteKey k v es) k = some v := by
  induction es with
  | nil => simp at h
  | cons p tl ih =>
    simp only [overwriteKey, List.map_cons] at ih ⊢
    by_cases hp : p.1 = k
    · simp [hp, dictGet?_cons]
    · simp only [List.any_cons, Bool.or_eq_true, decide_eq_true_eq] at h
      rcases h with h | h
      · exact absurd h hp
      · simpa [hp, dictGet?_cons] using ih h

theorem dictGet?_overwriteKey_other {β : Type} (k k' : String) (v : β)
    (es : List (String × β)) (hne : k' ≠ k) :
    dictGet? (overwriteKey k v es) k' = dictGet? es k' := by
  induction es with
  | nil => rfl
  | cons p tl ih =>
    simp only [overwriteKey, List.map_cons] at ih ⊢
    by_cases hp : p.1 = k
    · have h1 : ¬ (k = k') := fun h => hne h.symm
      have h2 : ¬ (p.1 = k') := by rw [hp]; exact h1
      rw [if_pos hp, dictGet?_cons, dictGet?_cons, if_neg h1, if_neg h2, ih]
    · rw [if_neg hp, dictGet?_cons, dictGet?_cons, ih]

theorem dictGet?_append_single_ne {β : Type} (k k' : String) (v : β)
    (es : List (String × β)) (hne : k' ≠ k) :
    dictGet? (es ++ [(k, v)]) k' = dictGet? es k' := by
  induction es with
  | nil =>
    have h1 : ¬ (k = k') := fun h => hne h.symm
    simp [dictGet?, List.find?, h1]
  | cons p tl ih =>
    by_cases hp : p.1 = k'
    · simp [dictGet?_cons, hp]
    · simp [dictGet?_cons, hp, ih]

theorem dictGet?_append_single_self {β : Type} (k : String) (v : β)
    (es : List (String × β)) (h : ¬ es.any (fun p => p.1 = k) = true) :
    dictGet? (es ++ [(k, v)]) k = some v := by
  induction es with
  | nil => simp [dictGet?, List.find?]
  | cons p tl ih =>
    simp only [List.any_cons, Bool.or_eq_true, decide_eq_true_eq,
      not_or] at h
    simp [dictGet?_cons, h.1]
    exact ih (by simpa using h.2)

theorem dictSet_self {β : Type} (es : List (String × β)) (k : String)
    (v : β) : dictGet? (dictSet es k v) k = some v := by
  unfold dictSet
  by_cases hmem : es.any (fun p => p.1 = k) = true
  · simp only [hmem, if_true]
    exact dictGet?_overwriteKey_self k v es hmem
  · simp only [hmem, if_false]
    exact dictGet?_append_single_self k v es hmem

theorem dictSet_other {β : Type} (es : List (String × β)) (k k' : String)
    (v : β) (hne : k' ≠ k) :
    dictGet? (dictSet es k v) k' = dictGet? es k' := by
  unfold dictSet
  by_cases hmem : es.any (fun p => p.1 = k) = true
  · simp only [hmem, if_true]
    exact dictGet?_overwriteKey_other k k' v es hne
  · simp only [hmem, if_false]
    exact dictGet?_append_single_ne k k' v es hne

theorem dictSet_keys_nodup {β : Type} (es : List (String × β)) (k : String)
    (v : β) (h : (es.map Prod.fst).Nodup) :
    ((dictSet es k v).map Prod.fst).Nodup := by
  unfold dictSet
  by_cases hmem : es.any (fun p => p.1 = k) = true
  · simp only [hmem, if_true]
    rw [overwriteKey_keys]; exact h
  · rw [if_neg hmem]
    simp only [List.map_append, List.map_cons, List.map_nil]
    rw [List.nodup_append]
    refine ⟨h, List.nodup_singleton k, ?_⟩
    intro a ha hb
    simp only [List.mem_singleton] at hb
    subst hb
    simp only [List.any_eq_true, decide_eq_true_eq] at hmem
    rcases List.mem_map.mp ha with ⟨p, hp, hpk⟩
    exact hmem ⟨p, hp, hpk⟩

theorem dictSet_keys_mem {β : Type} (es : List (String × β)) (k k' : String)
    (v : β) :
    k' ∈ (dictSet es k v).map Prod.fst ↔
      k' ∈ es.map Prod.fst ∨ k' = k := by
  unfold dictSet
  by_cases hmem : es.any (fun p => p.1 = k) = true
  · simp only [hmem, if_true]
    rw [overwriteKey_keys]
    constructor
    · exact Or.inl
    · rintro (h | rfl)
      · exact h
      · simp only [List.any_eq_true, decide_eq_true_eq] at hmem
        rcases hmem with ⟨p, hp, hpk⟩
        exact List.mem_map.mpr ⟨p, hp, hpk⟩
  · rw [if_neg hmem]
    simp only [List.map_append, List.map_cons, List.map_nil,
      List.mem_append, List.mem_singleton]

/-! ### Python values

`PyObj` models the Python objects `emit_mq_message` can receive as
`request_data`: dictionaries (association lists, string keys), strings,
lists, integers, booleans and `None`.  `truthy` is Python truthiness,
`hasLen` tells whether `len(·)` is defined (calling `len` on an object
without it raises `TypeError`), `pyLen` is `len(·)` where defined, and
`isDict` is `isinstance(·, dict)`. -/

inductive PyObj : Type where
  | vStr (s : String)
  | vInt (n : Int)
  | vNone
  | vBool (b : Bool)
  | vList (xs : List PyObj)
  | vDict (entries : List (String × PyObj))

def truthy : PyObj → Bool
  | .vStr s => s ≠ ""
  | .vInt n => n ≠ 0
  | .vNone => false
  | .vBool b => b
  | .vList xs => ¬ xs.isEmpty
  | .vDict es => ¬ es.isEmpty

def hasLen : PyObj → Bool
  | .vStr _ => true
  | .vList _ => true
  | .vDict _ => true
  | _ => false

def pyLen : PyObj → Nat
  | .vStr s => s.length
  | .vList xs => xs.length
  | .vDict es => es.length
  | _ => 0

def isDict : PyObj → Bool
  | .vDict _ => true
  | _ => false

/-- In-place Python dict assignment `d[k] = v`; identity on non-dicts. -/
def dictAssign : PyObj → String → PyObj → PyObj
  | .vDict es, k, v => .vDict (dictSet es k v)
  | o, _, _ => o

/-- Lookup `d[k]` on a dict payload, `none` otherwise. -/
def pyDictGet? : PyObj → String → Option PyObj
  | .vDict es, k => dictGet? es k
  | _, _ => none

/-! ### `MQConnector.emit_mq_message` (connector.py lines 131-156)

The pika broker client is external; the channel operations the method
performs on it are recorded in an explicit trace.  The `expiration='1000'`
property is kept as the literal millisecond string the code passes. -/

inductive BrokerOp : Type where
  | openChannel
  | basicPublish (exchange : String) (routingKey : String) (body : PyObj)
      (expiration : String)
  | closeChannel

inductive PyExc : Type where
  | valueError (offending : PyObj)
  | typeError

structure EmitOut : Type where
  result : Except PyExc String
  trace : List BrokerOp
  payloadAfter : PyObj

/-- Python `exchange or ''` on an optional string argument. -/
def orEmptyStr : Option String → String
  | none => ""
  | some s => s

/-- Embedding of `MQConnector.emit_mq_message`.  The Python guard is
`if request_data and len(request_data) > 0 and isinstance(request_data, dict)`
evaluated left to right with short-circuiting: a falsy payload or a sized
non-dict falls into the `else` branch raising
`ValueError(f'Invalid request data provided: ...')`, while a truthy payload
without `len` makes `len(request_data)` itself raise `TypeError`.  On the
happy path the fresh id (`cls.create_unique_id()`, supplied here as the
argument `freshId`) is written into the caller's dict under `'message_id'`,
a channel is opened, the updated dict is published (via `dict_to_b64`,
an external encoder; the trace carries the dict itself) with
`expiration='1000'`, the channel is closed and the id is returned. -/
def emit_mq_message (request_data : PyObj) (queue : String)
    (exchange : Option String) (freshId : String) : EmitOut :=
  if truthy request_data then
    if hasLen request_data then
      if 0 < pyLen request_data then
        if isDict request_data then
          let updated := dictAssign request_data "message_id" (.vStr freshId)
          { result := .ok freshId
            trace := [.openChannel,
                      .basicPublish (orEmptyStr exchange) queue updated "1000",
                      .closeChannel]
            payloadAfter := updated }
        else
          { result := .error (.valueError request_data)
            trace := []
            payloadAfter := request_data }
      else
        { result := .error (.valueError request_data)
          trace := []
          payloadAfter := request_data }
    else
      { result := .error .typeError
        trace := []
        payloadAfter := request_data }
  else
    { result := .error (.valueError request_data)
      trace := []
      payloadAfter := request_data }

/-! ### `get_timeout` (utils/connection_utils.py lines 24-37)

`return backoff_factor * (2 ** (number_of_retries - 1))`.  Python floats
multiplied by powers of two are exact, so the function is embedded over `ℚ`;
the exponent is an integer (`2 ** (-1)` is `0.5` in Python, so the exponent
uses `ℤ` subtraction, not truncated `ℕ` subtraction). -/

def get_timeout (backoff_factor : ℚ) (number_of_retries : ℤ) : ℚ :=
  backoff_factor * (2 : ℚ) ^ (number_of_retries - 1)

/-! ### The `retry` decorator's `wrapper` (utils/connection_utils.py 58-81)

`wrapper(self, num_attempts=0, *args, **kwargs)` calls the wrapped function;
on exception it invokes `callback_on_attempt_failure` (when configured),
sleeps, and then — when `num_attempts < num_retries` — executes
`num_attempts += 1` followed by a recursive call passing
`num_attempts=num_attempts+1`, i.e. the attempt counter grows by TWO per
retry; otherwise it invokes `callback_on_exceeded` (when configured) and
returns.  No branch has a `return` statement, so the wrapper always returns
`None` and the wrapped function's value is discarded.

The outcome of each actual invocation of the wrapped function is supplied
as `op : Nat → Option α`: `op k = some v` means the (0-based) `k`-th
invocation returns `v`, `op k = none` means it raises.  The recursion is
bounded (each recursive call requires `num_attempts < num_retries` and grows
`num_attempts` by 2), so it is embedded with explicit fuel; `num_retries + 1`
units always suffice, making `wrapper` equal to the Python recursion. -/

structure RetryResult (α : Type) : Type where
  invocations : Nat
  attemptFailureCalls : Nat
  exceededCalls : Nat
  retVal : Option α
  deriving DecidableEq, Repr

def wrapperGo {α : Type} (op : Nat → Option α) (num_retries : Nat) :
    Nat → Nat → Nat → RetryResult α
  | 0, _, _ => ⟨0, 0, 0, none⟩
  | fuel + 1, num_attempts, k =>
    match op k with
    | some _ => ⟨1, 0, 0, none⟩
    | none =>
      if num_attempts < num_retries then
        let r := wrapperGo op num_retries fuel (num_attempts + 2) (k + 1)
        ⟨r.invocations + 1, r.attemptFailureCalls + 1, r.exceededCalls, none⟩
      else
        ⟨1, 1, 1, none⟩

def wrapper {α : Type} (op : Nat → Option α) (num_retries : Nat)
    (num_attempts : Nat) : RetryResult α :=
  wrapperGo op num_retries (num_retries + 1) num_attempts 0

/-- One-step unfolding of `wrapperGo` at a successor fuel value. -/
theorem wrapperGo_succ {α : Type} (op : Nat → Option α) (num_retries : Nat)
    (fuel num_attempts k : Nat) :
    wrapperGo op num_retries (fuel + 1) num_attempts k
      = match op k with
        | some _ => ⟨1, 0, 0, none⟩
        | none =>
          if num_attempts < num_retries then
            let r := wrapperGo op num_retries fuel (num_attempts + 2) (k + 1)
            ⟨r.invocations + 1, r.attemptFailureCalls + 1, r.exceededCalls,
              none⟩
          else ⟨1, 1, 1, none⟩ := rfl

/-- The fuel in `wrapper` is irrelevant as long as it exceeds the number of
iterations, which is bounded by `(num_retries - num_attempts + 1) / 2 + 1`:
every recursive step requires `num_attempts < num_retries` and adds 2. -/
theorem wrapperGo_fuel_stable {α : Type} (op : Nat → Option α)
    (num_retries : Nat) :
    ∀ fuel fuel' num_attempts k,
      (num_retries - num_attempts + 1) / 2 < fuel →
      (num_retries - num_attempts + 1) / 2 < fuel' →
      wrapperGo op num_retries fuel num_attempts k
        = wrapperGo op num_retries fuel' num_attempts k := by
  intro fuel
  induction fuel with
  | zero => intro fuel' n k h; omega
  | succ f ih =>
    intro fuel' n k h h'
    match fuel', h' with
    | f' + 1, _ =>
      rw [wrapperGo_succ, wrapperGo_succ]
      cases op k with
      | some v => rfl
      | none =>
        simp only
        by_cases hn : n < num_retries
        · rw [if_pos hn, if_pos hn,
            ih f' (n + 2) (k + 1) (by omega) (by omega)]
        · rw [if_neg hn, if_neg hn]

/-- The invocation index supplied to `op` is a pure shift: running from
invocation `k + 1` is running the shifted outcome function from `k`. -/
theorem wrapperGo_shift {α : Type} (op : Nat → Option α) (num_retries : Nat) :
    ∀ fuel num_attempts k,
      wrapperGo op num_retries fuel num_attempts (k + 1)
        = wrapperGo (fun i => op (i + 1)) num_retries fuel num_attempts k := by
  intro fuel
  induction fuel with
  | zero => intro n k; rfl
  | succ f ih =>
    intro n k
    rw [wrapperGo_succ, wrapperGo_succ]
    cases op (k + 1) with
    | some v => rfl
    | none =>
      simp only
      by_cases hn : n < num_retries
      · rw [if_pos hn, if_pos hn, ih (n + 2) (k + 1)]
      · rw [if_neg hn, if_neg hn]

/-- The fuel embedding satisfies exactly the recurrence of the Python
`wrapper`: try the operation; on failure run the failure callback, and when
`num_attempts < num_retries` recurse with the counter advanced by TWO
(`num_attempts += 1` followed by passing `num_attempts + 1`), else run the
exceeded callback and stop, always returning `None`. -/
theorem wrapper_unfold {α : Type} (op : Nat → Option α) (num_retries : Nat)
    (num_attempts : Nat) :
    wrapper op num_retries num_attempts
      = match op 0 with
        | some _ => ⟨1, 0, 0, none⟩
        | none =>
          if num_attempts < num_retries then
            let r := wrapper (fun i => op (i + 1)) num_retries
              (num_attempts + 2)
            ⟨r.invocations + 1, r.attemptFailureCalls + 1, r.exceededCalls,
              none⟩
          else ⟨1, 1, 1, none⟩ := by
  show wrapperGo op num_retries (num_retries + 1) num_attempts 0 = _
  rw [wrapperGo_succ]
  cases op 0 with
  | some v => rfl
  | none =>
    simp only
    by_cases hn : num_attempts < num_retries
    · rw [if_pos hn, if_pos hn,
        wrapperGo_fuel_stable op num_retries num_retries (num_retries + 1)
          (num_attempts + 2) 1 (by omega) (by omega),
        wrapperGo_shift op num_retries (num_retries + 1) (num_attempts + 2) 0]
      rfl
    · rw [if_neg hn, if_neg hn]

/-! ### `ConsumerThread.run` (connector.py lines 57-66)

`self.channel.start_consuming()` either returns normally, raises
`pika.exceptions.ChannelClosed` (the broker closed the channel — caught and
only debug-logged), or raises any other exception `e` — caught, logged, and
forwarded as `self.error_func(self, e)`.  Worker identity and exceptions are
abstract tokens (`Nat`).  `propagated` records any exception escaping
`run()` across the thread boundary. -/

inductive RunOutcome : Type where
  | normal
  | channelClosed
  | exc (e : Nat)
  deriving DecidableEq, Repr

structure RunResult : Type where
  errorFuncCalls : List (Nat × Nat)
  propagated : Option Nat
  deriving DecidableEq, Repr

def consumerRun (selfId : Nat) (outcome : RunOutcome) : RunResult :=
  match outcome with
  | .normal => { errorFuncCalls := [], propagated := none }
  | .channelClosed => { errorFuncCalls := [], propagated := none }
  | .exc e => { errorFuncCalls := [(selfId, e)], propagated := none }

/-! ### `ConsumerThread.join` (connector.py lines 68-79)

A single `try` block runs `stop_consuming()`, then `channel.close()` if the
channel is open, then `connection.close()` if the connection is open; one
`except Exception` logs whichever exception escapes the block, and the
`finally` always calls `super().join()`.  Each of the three teardown calls
may raise, described by the `TeardownBehavior` flags; the model returns the
ordered trace of calls actually performed plus the logged exception. -/

structure TeardownBehavior : Type where
  stopConsumingExc : Option Nat
  channelOpen : Bool
  channelCloseExc : Option Nat
  connectionOpen : Bool
  connectionCloseExc : Option Nat
  deriving DecidableEq, Repr

inductive TdOp : Type where
  | stopConsuming
  | channelClose
  | connectionClose
  | threadJoin
  deriving DecidableEq, Repr

def consumerJoin (w : TeardownBehavior) : List TdOp × Option Nat :=
  let tryBody : List TdOp × Option Nat :=
    match w.stopConsumingExc with
    | some e => ([.stopConsuming], some e)
    | none =>
      let afterStop : List TdOp := [.stopConsuming]
      if w.channelOpen then
        match w.channelCloseExc with
        | some e => (afterStop ++ [.channelClose], some e)
        | none =>
          let afterChan := afterStop ++ [.channelClose]
          if w.connectionOpen then
            match w.connectionCloseExc with
            | some e => (afterChan ++ [.connectionClose], some e)
            | none => (afterChan ++ [.connectionClose], none)
          else (afterChan, none)
      else
        if w.connectionOpen then
          match w.connectionCloseExc with
          | some e => (afterStop ++ [.connectionClose], some e)
          | none => (afterStop ++ [.connectionClose], none)
        else (afterStop, none)
  (tryBody.1 ++ [.threadJoin], tryBody.2)

/-! ### The consumer registry: `register_consumer` (connector.py 170-185)

`self.consumers[name] = ConsumerThread(...)`: a plain dict assignment, so an
existing name is silently overwritten.  The constructed `ConsumerThread`'s
configuration is recorded; `error_func` is `on_error or
self.default_error_handler`.  Callbacks are abstract tokens (`Nat`). -/

inductive ErrHandler : Type where
  | user (h : Nat)
  | defaultHandler
  deriving DecidableEq, Repr

structure Registration : Type where
  name : String
  vhost : String
  queue : String
  callback : Nat
  onError : Option Nat
  autoAck : Bool
  deriving DecidableEq, Repr

structure ConsumerEntry : Type where
  vhost : String
  queue : String
  callback : Nat
  errorFunc : ErrHandler
  autoAck : Bool
  deriving DecidableEq, Repr

def mkConsumerEntry (r : Registration) : ConsumerEntry :=
  { vhost := r.vhost
    queue := r.queue
    callback := r.callback
    errorFunc := match r.onError with
      | some h => .user h
      | none => .defaultHandler
    autoAck := r.autoAck }

def register_consumer (consumers : List (String × ConsumerEntry))
    (r : Registration) : List (String × ConsumerEntry) :=
  dictSet consumers r.name (mkConsumerEntry r)

/-! ### `MQConnector.stop_consumers` (connector.py lines 205-216)

`names` defaults to all registered names; the loop body is wrapped in a
`try` whose `except` immediately raises `ChildProcessError(e)`, aborting the
loop.  Each worker's `join()` behaviour is given as `Option Nat` in the
registry value: `none` joins cleanly, `some e` raises `e`.  The result
records which workers had `join` attempted (in order) and the
`ChildProcessError` cause, if one was raised. -/

structure StopResult : Type where
  attempted : List String
  raised : Option Nat
  deriving DecidableEq, Repr

def stopLoop (consumers : List (String × Option Nat)) :
    List String → StopResult
  | [] => { attempted := [], raised := none }
  | n :: rest =>
    match dictGet? consumers n with
    | none => stopLoop consumers rest
    | some none =>
      let r := stopLoop consumers rest
      { attempted := n :: r.attempted, raised := r.raised }
    | some (some e) => { attempted := [n], raised := some e }

def stop_consumers (consumers : List (String × Option Nat))
    (names : List String) : StopResult :=
  stopLoop consumers (if names.isEmpty then consumers.map Prod.fst else names)

/-! ### Helper lemmas about `emit_mq_message` -/

/-- A truthy Python object that supports `len` has positive length:
truthiness of strings, lists and dicts is exactly non-emptiness. -/
theorem truthy_hasLen_pyLen_pos (p : PyObj) (ht : truthy p = true)
    (hl : hasLen p = true) : 0 < pyLen p := by
  cases p with
  | vStr s =>
    simp only [truthy, ne_eq, decide_not] at ht
    have hs : s ≠ "" := by
      intro h
      subst h
      simp at ht
    cases s with
    | mk data =>
      cases data with
      | nil => exact absurd rfl hs
      | cons c cs => simp [pyLen, String.length]
  | vInt n => simp [hasLen] at hl
  | vNone => simp [truthy] at ht
  | vBool b => simp [hasLen] at hl
  | vList xs =>
    cases xs with
    | nil => simp [truthy] at ht
    | cons x tl => simp [pyLen]
  | vDict es =>
    cases es with
    | nil => simp [truthy] at ht
    | cons p tl => simp [pyLen]

/-- Happy path of `emit_mq_message` on a non-empty dict payload. -/
theorem emit_dict_spec (es : List (String × PyObj)) (queue : String)
    (exchange : Option String) (freshId : String) (hne : es ≠ []) :
    emit_mq_message (.vDict es) queue exchange freshId =
      { result := .ok freshId
        trace := [.openChannel,
                  .basicPublish (orEmptyStr exchange) queue
                    (.vDict (dictSet es "message_id" (.vStr freshId))) "1000",
                  .closeChannel]
        payloadAfter := .vDict (dictSet es "message_id" (.vStr freshId)) } := by
  have ht : truthy (.vDict es) = true := by
    cases es with
    | nil => exact absurd rfl hne
    | cons p tl => simp [truthy]
  have hlen : 0 < pyLen (.vDict es) :=
    truthy_hasLen_pyLen_pos _ ht (by simp [hasLen])
  simp [emit_mq_message, ht, hasLen, hlen, isDict, dictAssign]

/-- Every branch of the Python `wrapper` falls off the end of the function,
so the wrapped function's value is discarded and `None` is returned. -/
theorem wrapperGo_retVal_none {α : Type} (op : Nat → Option α)
    (num_retries : Nat) :
    ∀ fuel num_attempts k,
      (wrapperGo op num_retries fuel num_attempts k).retVal = none := by
  intro fuel
  induction fuel with
  | zero => intro n k; rfl
  | succ f ih =>
    intro n k
    rw [wrapperGo_succ]
    cases op k with
    | some v => rfl
    | none =>
      simp only
      by_cases hn : n < num_retries
      · rw [if_pos hn]
      · rw [if_neg hn]

/-! ### Claims -/

/-- C3: for every backoffFactor > 0 and attemptNumber ≥ 1, `get_timeout`
equals `backoffFactor * 2 ^ (attemptNumber - 1)` exactly and is
monotonically non-decreasing in the attempt number; it is a pure function
of its two arguments. -/
theorem get_timeout_exact_monotone (b : ℚ) (n m : ℤ)
    (hb : 0 < b) (hn : 1 ≤ n) (hnm : n ≤ m) :
    get_timeout b n = b * (2 : ℚ) ^ (n - 1) ∧
    get_timeout b n ≤ get_timeout b m := by
  refine ⟨rfl, ?_⟩
  unfold get_timeout
  exact mul_le_mul_of_nonneg_left
    (zpow_le_zpow_right₀ one_le_two (by omega)) hb.le

/-- C3 witness: at backoffFactor = 0.1 the spec's examples hold:
attempt 1 gives 0.1 and the delay is non-decreasing up to attempt 3. -/
theorem get_timeout_exact_monotone_witness :
    ((0 : ℚ) < 1/10 ∧ (1 : ℤ) ≤ 1 ∧ (1 : ℤ) ≤ 3) ∧
    (get_timeout (1/10) 1 = (1/10) * (2 : ℚ) ^ ((1 : ℤ) - 1) ∧
     get_timeout (1/10) 1 ≤ get_timeout (1/10) 3) :=
  ⟨⟨by norm_num, by norm_num, by norm_num⟩,
   get_timeout_exact_monotone (1/10) 1 3 (by norm_num) (by norm_num)
     (by norm_num)⟩

/-- C1: evaluation of the retry wrapper at the failing input.  The claim
(and the spec) require an operation failing on every attempt to be invoked
`min(failures, maxRetries + 1)` times — with `num_retries = 3` (the
decorator's default) that is 4 invocations — but the recursive call passes
`num_attempts = num_attempts + 2` (`num_attempts += 1` followed by
`num_attempts + 1`), so the attempt counter runs 0, 2, 4 and the wrapped
operation is invoked only 3 times, with the exceeded callback firing after
only 2 retries.  This contradicts the code's own log lines, which count
`Attempt #num_attempts` one by one and report failure `after num_retries
attempts`. -/
theorem retry_always_failing_attempt_count_eval :
    (wrapper (fun _ => (none : Option Unit)) 3 0).invocations = 3 ∧
    (wrapper (fun _ => (none : Option Unit)) 3 0).invocations ≠ 3 + 1 ∧
    (wrapper (fun _ => (none : Option Unit)) 3 0).exceededCalls = 1 ∧
    (wrapper (fun _ => (none : Option Unit)) 3 0).attemptFailureCalls = 3 ∧
    (wrapper (fun _ => (none : Option Unit)) 2 0).invocations = 2 := by
  decide

/-- C10: the function produced by the retry decorator discards the wrapped
operation's return value and returns `None` on every call — including when
the very first attempt succeeds with a non-`None` result (any `op` with
`op 0 = some v` is covered by the universal quantifier). -/
theorem retry_wrapper_discards_result {α : Type} (op : Nat → Option α)
    (num_retries num_attempts : Nat) :
    (wrapper op num_retries num_attempts).retVal = none :=
  wrapperGo_retVal_none op num_retries _ _ _

/-- C5: an exception in the receive loop other than a
`pika.exceptions.ChannelClosed` (broker-initiated channel closure) invokes
the registered error handler exactly once with the pair (worker,
exception) and nothing escapes `run()` across the thread boundary; a
broker-initiated channel closure is a normal exit with no error-handler
invocation. -/
theorem consumer_run_error_routing (selfId : Nat) (outcome : RunOutcome) :
    (∀ e, outcome = .exc e →
      (consumerRun selfId outcome).errorFuncCalls = [(selfId, e)]) ∧
    (outcome = .channelClosed →
      (consumerRun selfId outcome).errorFuncCalls = []) ∧
    (consumerRun selfId outcome).propagated = none := by
  refine ⟨?_, ?_, ?_⟩
  · rintro e rfl; rfl
  · rintro rfl; rfl
  · cases outcome <;> rfl

/-- C5 witness: a worker whose loop raises exception 5 invokes its error
handler exactly once with (worker, 5); a closed channel invokes nothing. -/
theorem consumer_run_error_routing_witness :
    (consumerRun 0 (.exc 5)).errorFuncCalls = [(0, 5)] ∧
    (consumerRun 0 .channelClosed).errorFuncCalls = [] :=
  ⟨(consumer_run_error_routing 0 (.exc 5)).1 5 rfl,
   (consumer_run_error_routing 0 .channelClosed).2.1 rfl⟩

/-- C4 counterexample: the claim says every non-mapping payload raises
`ValueError` (ValidationError), but for the truthy non-mapping `5` the
guard `request_data and len(request_data) > 0 and ...` evaluates
`len(5)`, which raises `TypeError`, not `ValueError`. -/
theorem emit_truthy_nonsized_counterexample :
    (emit_mq_message (.vInt 5) "q" none "id").result
      = .error .typeError ∧
    (Except.error PyExc.typeError : Except PyExc String)
      ≠ .error (.valueError (.vInt 5)) := by
  refine ⟨rfl, fun h => ?_⟩
  injection h with h2
  exact PyExc.noConfusion h2

/-- C4 (amended): a payload that is an empty mapping or not a mapping
performs no broker interaction and is left unchanged; it raises
`ValueError` when it is falsy or supports `len()`, but a truthy
non-mapping without `len()` raises `TypeError` instead (from the `len`
call in the guard). -/
theorem emit_invalid_payload_amended (payload : PyObj) (queue : String)
    (exchange : Option String) (freshId : String)
    (hinvalid : isDict payload = false ∨ payload = .vDict []) :
    (if truthy payload = true ∧ hasLen payload = false then
       (emit_mq_message payload queue exchange freshId).result
         = .error .typeError
     else
       (emit_mq_message payload queue exchange freshId).result
         = .error (.valueError payload)) ∧
    (emit_mq_message payload queue exchange freshId).trace = [] ∧
    (emit_mq_message payload queue exchange freshId).payloadAfter
      = payload := by
  by_cases ht : truthy payload = true
  · by_cases hl : hasLen payload = true
    · have hlen := truthy_hasLen_pyLen_pos payload ht hl
      have hnd : isDict payload = false := by
        rcases hinvalid with h | h
        · exact h
        · rw [h] at ht
          simp [truthy] at ht
      simp [emit_mq_message, ht, hl, hlen, hnd]
    · simp only [Bool.not_eq_true] at hl
      simp [emit_mq_message, ht, hl]
  · simp only [Bool.not_eq_true] at ht
    simp [emit_mq_message, ht]

/-- C4 witness: the empty mapping raises `ValueError` with no broker
interaction and the payload unchanged. -/
theorem emit_invalid_payload_amended_witness :
    (if truthy (PyObj.vDict []) = true ∧ hasLen (PyObj.vDict []) = false then
       (emit_mq_message (.vDict []) "q" none "id").result
         = .error .typeError
     else
       (emit_mq_message (.vDict []) "q" none "id").result
         = .error (.valueError (.vDict []))) ∧
    (emit_mq_message (.vDict []) "q" none "id").trace = [] ∧
    (emit_mq_message (.vDict []) "q" none "id").payloadAfter
      = .vDict [] :=
  emit_invalid_payload_amended (.vDict []) "q" none "id" (Or.inr rfl)

/-- C7: on a valid (non-empty mapping) payload, `emit_mq_message` stores
the fresh identifier under the reserved key `message_id`, opens a
transient channel, publishes the updated payload with the 1-second
(`'1000'` milliseconds) expiration, closes that channel, and returns the
identifier, which is exactly the `message_id` field carried in the
published payload. -/
theorem emit_valid_payload_publish (es : List (String × PyObj))
    (queue : String) (exchange : Option String) (freshId : String)
    (hne : es ≠ []) :
    emit_mq_message (.vDict es) queue exchange freshId
      = { result := .ok freshId
          trace := [.openChannel,
                    .basicPublish (orEmptyStr exchange) queue
                      (.vDict (dictSet es "message_id" (.vStr freshId)))
                      "1000",
                    .closeChannel]
          payloadAfter :=
            .vDict (dictSet es "message_id" (.vStr freshId)) } ∧
    pyDictGet? (.vDict (dictSet es "message_id" (.vStr freshId)))
      "message_id" = some (.vStr freshId) :=
  ⟨emit_dict_spec es queue exchange freshId hne,
   dictSet_self es "message_id" (.vStr freshId)⟩

/-- C7 witness: publishing `{"data": "Hello!"}` to queue Q returns the
generated identifier and the published payload carries it under
`message_id`. -/
theorem emit_valid_payload_publish_witness :
    ([("data", PyObj.vStr "Hello!")] ≠ ([] : List (String × PyObj))) ∧
    (emit_mq_message (.vDict [("data", .vStr "Hello!")]) "Q" none "mid-1"
      = { result := .ok "mid-1"
          trace := [.openChannel,
                    .basicPublish (orEmptyStr none) "Q"
                      (.vDict (dictSet [("data", .vStr "Hello!")]
                        "message_id" (.vStr "mid-1"))) "1000",
                    .closeChannel]
          payloadAfter := .vDict (dictSet [("data", .vStr "Hello!")]
            "message_id" (.vStr "mid-1")) } ∧
     pyDictGet? (.vDict (dictSet [("data", .vStr "Hello!")]
       "message_id" (.vStr "mid-1"))) "message_id"
       = some (.vStr "mid-1")) :=
  ⟨by simp,
   emit_valid_payload_publish [("data", .vStr "Hello!")] "Q" none "mid-1"
     (by simp)⟩

/-- C9: `emit_mq_message` mutates the caller's mapping in place — after
the call the mapping holds the fresh identifier under `message_id`
(added or overwritten), and every other key still maps to its original
value. -/
theorem emit_payload_frame_effect (es : List (String × PyObj))
    (queue : String) (exchange : Option String) (freshId : String)
    (k : String) (hne : es ≠ []) (hk : k ≠ "message_id") :
    pyDictGet?
      (emit_mq_message (.vDict es) queue exchange freshId).payloadAfter
      "message_id" = some (.vStr freshId) ∧
    pyDictGet?
      (emit_mq_message (.vDict es) queue exchange freshId).payloadAfter
      k = pyDictGet? (.vDict es) k := by
  rw [emit_dict_spec es queue exchange freshId hne]
  exact ⟨by simpa [pyDictGet?] using
      dictSet_self es "message_id" (.vStr freshId),
    by simpa [pyDictGet?] using
      dictSet_other es "message_id" k (.vStr freshId) hk⟩

/-- C9 witness: after publishing `{"data": "Hello!"}` the caller's
mapping carries the identifier under `message_id` and key `data`
unchanged. -/
theorem emit_payload_frame_effect_witness :
    pyDictGet?
      (emit_mq_message (.vDict [("data", .vStr "Hello!")]) "Q" none
        "mid-2").payloadAfter "message_id" = some (.vStr "mid-2") ∧
    pyDictGet?
      (emit_mq_message (.vDict [("data", .vStr "Hello!")]) "Q" none
        "mid-2").payloadAfter "data"
      = pyDictGet? (.vDict [("data", .vStr "Hello!")]) "data" :=
  emit_payload_frame_effect [("data", .vStr "Hello!")] "Q" none "mid-2"
    "data" (by simp) (by simp)

/-- Folding registrations into the registry preserves key uniqueness. -/
theorem foldl_register_nodup :
    ∀ (regs : List Registration) (m : List (String × ConsumerEntry)),
      (m.map Prod.fst).Nodup →
      ((regs.foldl register_consumer m).map Prod.fst).Nodup
  | [], _, h => h
  | r :: tl, m, h =>
    foldl_register_nodup tl _
      (dictSet_keys_nodup m r.name (mkConsumerEntry r) h)

/-- The registry's keys after a fold are the starting keys plus the
registered names. -/
theorem foldl_register_keys_mem (regs : List Registration) :
    ∀ (m : List (String × ConsumerEntry)) (n : String),
      n ∈ (regs.foldl register_consumer m).map Prod.fst ↔
        n ∈ m.map Prod.fst ∨ n ∈ regs.map Registration.name := by
  induction regs with
  | nil => intro m n; simp
  | cons r tl ih =>
    intro m n
    rw [List.foldl_cons, ih (register_consumer m r) n]
    show n ∈ (dictSet m r.name (mkConsumerEntry r)).map Prod.fst ∨ _ ↔ _
    rw [dictSet_keys_mem]
    simp only [List.map_cons, List.mem_cons]
    tauto

/-- C8: registering a name that already exists silently replaces the
prior worker (a plain dict assignment, no error), so after any sequence
of registrations the registry holds at most one worker per name
(`Nodup` keys) and its keys are exactly the registered names. -/
theorem register_consumer_overwrite_registry (regs : List Registration)
    (m0 : List (String × ConsumerEntry)) (r : Registration) :
    ((List.foldl register_consumer [] regs).map Prod.fst).Nodup ∧
    (∀ n, n ∈ (List.foldl register_consumer [] regs).map Prod.fst ↔
        n ∈ regs.map Registration.name) ∧
    dictGet? (register_consumer m0 r) r.name = some (mkConsumerEntry r) := by
  refine ⟨foldl_register_nodup regs [] (by simp), ?_, ?_⟩
  · intro n
    rw [foldl_register_keys_mem regs [] n]
    simp
  · exact dictSet_self m0 r.name (mkConsumerEntry r)

/-- C6 counterexample: the claim says a failure in one teardown step does
not prevent the next, but all three steps share one `try` block: when
`stop_consuming` raises and the channel is open, neither `channel.close`
nor `connection.close` is attempted. -/
theorem consumer_join_single_try_counterexample :
    consumerJoin ⟨some 7, true, none, true, none⟩
      = ([.stopConsuming, .threadJoin], some 7) ∧
    TdOp.channelClose ∉ (consumerJoin ⟨some 7, true, none, true, none⟩).1 ∧
    TdOp.connectionClose
      ∉ (consumerJoin ⟨some 7, true, none, true, none⟩).1 ∧
    (⟨some 7, true, none, true, none⟩ : TeardownBehavior).channelOpen
      = true := by
  decide

/-- C6 (amended): `stop` requests the broker to halt delivery, closes the
channel if open, closes the connection if open — all inside a single
`try`, so the FIRST failure is swallowed and logged but aborts the
remaining teardown steps — and then joins the thread unconditionally
(the `finally` clause), with no exception propagating to the caller. -/
theorem consumer_join_amended (w : TeardownBehavior) :
    (consumerJoin w).1.getLast? = some .threadJoin ∧
    (∀ e, w.stopConsumingExc = some e →
      consumerJoin w = ([.stopConsuming, .threadJoin], some e)) ∧
    (∀ e, w.stopConsumingExc = none → w.channelOpen = true →
      w.channelCloseExc = some e →
      consumerJoin w
        = ([.stopConsuming, .channelClose, .threadJoin], some e)) ∧
    (w.stopConsumingExc = none →
      (w.channelOpen = true → w.channelCloseExc = none) →
      (w.connectionOpen = true → w.connectionCloseExc = none) →
      (consumerJoin w).2 = none ∧
      (consumerJoin w).1
        = [TdOp.stopConsuming]
          ++ (if w.channelOpen then [TdOp.channelClose] else [])
          ++ (if w.connectionOpen then [TdOp.connectionClose] else [])
          ++ [TdOp.threadJoin]) := by
  obtain ⟨sce, cho, cce, cno, nce⟩ := w
  cases sce <;> cases cho <;> cases cce <;> cases cno <;> cases nce <;>
    simp [consumerJoin]

/-- C6 witness: a worker with open channel and connection whose teardown
steps all succeed performs halt, both closes, then the join. -/
theorem consumer_join_amended_witness :
    (consumerJoin ⟨none, true, none, true, none⟩).2 = none ∧
    (consumerJoin ⟨none, true, none, true, none⟩).1
      = [TdOp.stopConsuming]
        ++ (if (⟨none, true, none, true, none⟩ :
              TeardownBehavior).channelOpen then [TdOp.channelClose] else [])
        ++ (if (⟨none, true, none, true, none⟩ :
              TeardownBehavior).connectionOpen then [TdOp.connectionClose]
            else [])
        ++ [TdOp.threadJoin] :=
  (consumer_join_amended ⟨none, true, none, true, none⟩).2.2.2 rfl
    (fun _ => rfl) (fun _ => rfl)

/-- C2 counterexample: the claim says shutdown is still attempted for
every remaining named worker before the error is raised, but the
`except` clause raises `ChildProcessError` inside the loop: when
stopping worker a fails, worker b is never attempted. -/
theorem stop_consumers_first_failure_counterexample :
    stop_consumers [("a", some 7), ("b", none)] []
      = { attempted := ["a"], raised := some 7 } ∧
    "b" ∉ (stop_consumers [("a", some 7), ("b", none)] []).attempted := by
  decide

/-- Iterating the stop loop up to the first failing join: the earlier
names that are present join cleanly, the failing worker's exception is
re-raised as `ChildProcessError` at once, and the loop aborts. -/
theorem stopLoop_first_failure (consumers : List (String × Option Nat))
    (n : String) (e : Nat) (post : List String)
    (hn : dictGet? consumers n = some (some e)) :
    ∀ pre : List String,
      (∀ m ∈ pre, dictGet? consumers m = none ∨
        dictGet? consumers m = some none) →
      stopLoop consumers (pre ++ n :: post)
        = { attempted :=
              (pre.filter fun m => (dictGet? consumers m).isSome) ++ [n]
            raised := some e }
  | [], _ => by simp [stopLoop, hn]
  | m :: pre', h => by
    have hrest := stopLoop_first_failure consumers n e post hn pre'
      (fun x hx => h x (List.mem_cons_of_mem m hx))
    rcases h m (List.mem_cons_self m pre') with hm | hm
    · simp [stopLoop, hm, hrest, List.filter_cons]
    · simp [stopLoop, hm, hrest, List.filter_cons]

/-- C2 (amended): when stopping a worker raises, the exception is
immediately re-raised as a single `ChildProcessError` wrapping the
underlying cause, and shutdown is NOT attempted for the workers after the
failing one: only the present workers before it, plus the failing worker
itself, have `join` attempted. -/
theorem stop_consumers_amended (consumers : List (String × Option Nat))
    (pre post : List String) (n : String) (e : Nat)
    (hpre : ∀ m ∈ pre, dictGet? consumers m = none ∨
      dictGet? consumers m = some none)
    (hn : dictGet? consumers n = some (some e)) :
    stop_consumers consumers (pre ++ n :: post)
      = { attempted :=
            (pre.filter fun m => (dictGet? consumers m).isSome) ++ [n]
          raised := some e } ∧
    ∀ m ∈ post, m ∉ pre → m ≠ n →
      m ∉ (stop_consumers consumers (pre ++ n :: post)).attempted := by
  have hnames : (pre ++ n :: post).isEmpty = false := by
    simp [List.isEmpty_eq_false]
  have heq : stop_consumers consumers (pre ++ n :: post)
      = stopLoop consumers (pre ++ n :: post) := by
    unfold stop_consumers
    rw [hnames]
    rfl
  rw [heq, stopLoop_first_failure consumers n e post hn pre hpre]
  refine ⟨rfl, ?_⟩
  intro m _ hmpre hmn hmem
  simp only [List.mem_append, List.mem_singleton] at hmem
  rcases hmem with hmem | hmem
  · exact hmpre (List.mem_of_mem_filter hmem)
  · exact hmn hmem

/-- C2 witness: with workers x (joins cleanly), y (join raises 3) and z,
stopping all of them by name attempts x and y only, re-raises
`ChildProcessError` with cause 3, and never attempts z. -/
theorem stop_consumers_amended_witness :
    stop_consumers [("x", none), ("y", some 3), ("z", none)]
        (["w", "x"] ++ "y" :: ["z"])
      = { attempted :=
            (["w", "x"].filter fun m =>
              (dictGet? [("x", none), ("y", some 3), ("z", none)] m).isSome)
            ++ ["y"]
          raised := some 3 } :=
  (stop_consumers_amended [("x", none), ("y", some 3), ("z", none)]
    ["w", "x"] ["z"] "y" 3 (by decide) (by decide)).1

end NeonMQ
